import Mathlib

/-!
Verification development for the gotell comment-submission pipeline
(`api` package, `postComment` / `verify` handlers).

Strings are modelled at the character level over ASCII inputs; Go's
byte-level slicing coincides with character slicing on ASCII text.
Response bodies are modelled without the trailing newline that each Go
writer (`fmt.Fprintln`, `json.Encoder.Encode`) appends.
-/

namespace Gotell

/-- Characters trimmed by Go `strings.TrimSpace` (ASCII whitespace:
space, tab, newline, vertical tab, form feed, carriage return). -/
def goIsSpace (c : Char) : Bool :=
  c == ' ' || c == '\t' || c == '\n' || c == Char.ofNat 11 || c == Char.ofNat 12 || c == '\r'

/-- Go `strings.TrimSpace` on a character list. -/
def trimSpace (s : List Char) : List Char :=
  ((s.dropWhile goIsSpace).reverse.dropWhile goIsSpace).reverse

/-- Go `strings.Contains(s, sub)`: substring containment. -/
def containsSubList : List Char → List Char → Bool
  | s, sub =>
    if sub.isPrefixOf s then true
    else
      match s with
      | [] => false
      | _ :: rest => containsSubList rest sub

/-- Go `strings.Contains` on `String`. -/
def containsSub (s sub : String) : Bool :=
  containsSubList s.toList sub.toList

/-- A word character in Go's RE2 `\w` class: `[0-9A-Za-z_]`. -/
def isWordChar (c : Char) : Bool :=
  c.isAlpha || c.isDigit || c == '_'

/-- The `slugify` regexp `\W` replacement: every non-word character
becomes a hyphen. -/
def slugifyChars (s : List Char) : List Char :=
  s.map (fun c => if isWordChar c then c else '-')

/-- Go `strings.Trim(s, "-")`: strip leading and trailing hyphens. -/
def trimHyphens (s : List Char) : List Char :=
  ((s.dropWhile (· == '-')).reverse.dropWhile (· == '-')).reverse

/-- The `squeeze` regexp `-+` replacement: collapse each run of hyphens
into a single hyphen. -/
def squeezeHyphens : List Char → List Char
  | [] => []
  | [c] => [c]
  | c1 :: c2 :: rest =>
    if c1 == '-' && c2 == '-' then squeezeHyphens (c2 :: rest)
    else c1 :: squeezeHyphens (c2 :: rest)

/-- Split a character list after its first newline: returns the head
segment (newline included) and the remainder, or `none` when the list
has no newline. -/
def breakAfterNewline : List Char → Option (List Char × List Char)
  | [] => none
  | c :: rest =>
    if c = '\n' then some ([c], rest)
    else
      match breakAfterNewline rest with
      | none => none
      | some (pre, post) => some (c :: pre, post)

/-- Go `strings.SplitAfterN(s, "\n", n)`: at most `n` segments, each
segment keeping its trailing newline; `n = 0` yields no segments and
`n = 1` yields the whole string unsplit. -/
def splitAfterNewlineN : List Char → Nat → List (List Char)
  | _, 0 => []
  | s, 1 => [s]
  | s, n + 2 =>
    match breakAfterNewline s with
    | none => [s]
    | some (pre, post) => pre :: splitAfterNewlineN post (n + 1)

/-- The source's `Min` helper. -/
def Min (x y : Nat) : Nat :=
  if x < y then x else y

/-- Go slice expression `s[lo:hi]` with its bounds check: out-of-range
indices are a runtime failure, modelled as `none`. -/
def goSlice (s : List Char) (lo hi : Nat) : Option (List Char) :=
  if lo ≤ hi ∧ hi ≤ s.length then some ((s.take hi).drop lo) else none

/-- Line 102 of the handler:
`strings.SplitAfterN(strings.ToLower(strings.TrimSpace(body[0:len(body)])), "\n", 1)[0]`. -/
def firstParagraphOf (body : String) : Option String := do
  let b ← goSlice body.toList 0 body.toList.length
  let lowered := (trimSpace b).map Char.toLower
  let seg ← (splitAfterNewlineN lowered 1).get? 0
  pure (String.mk seg)

/-- Line 103 of the handler:
`squeeze.ReplaceAllString(strings.Trim(slugify.ReplaceAllString(fp[0:Min(50, len(fp))], "-"), "-"), "-")`. -/
def nameFrom (fp : String) : Option String := do
  let truncated ← goSlice fp.toList 0 (Min 50 fp.toList.length)
  pure (String.mk (squeezeHyphens (trimHyphens (slugifyChars truncated))))

/-- The complete slug derivation of lines 102–103. -/
def slugOf (body : String) : Option String :=
  (firstParagraphOf body).bind nameFrom

/-- Maximal run of decimal digits at the head of the list, with the
remainder: the greedy behaviour of `\d+`. -/
def digitRun : List Char → List Char × List Char
  | [] => ([], [])
  | c :: rest =>
    if c.isDigit then
      let p := digitRun rest
      (c :: p.1, p.2)
    else ([], c :: rest)

/-- Attempt to match `(\d+)-(\d+)-(.+)` starting exactly at the head of
the list; `.` does not match a newline. Greedy runs need no backtracking
here because a digit run can only be followed by a non-digit. -/
def tryThreadMatch (s : List Char) : Option (String × String × String) :=
  let p1 := digitRun s
  if p1.1.isEmpty then none
  else
    match p1.2 with
    | '-' :: rest2 =>
      let p2 := digitRun rest2
      if p2.1.isEmpty then none
      else
        match p2.2 with
        | '-' :: rest4 =>
          let g3 := rest4.takeWhile (· != '\n')
          if g3.isEmpty then none
          else some (String.mk p1.1, String.mk p2.1, String.mk g3)
        | _ => none
    | _ => none

/-- `threadRegexp.FindStringSubmatch`: the leftmost match of
`(\d+)-(\d+)-(.+)`, or `none` when the pattern occurs nowhere (in which
case the Go code's `matches[1]` indexes a nil slice). -/
def threadFind : List Char → Option (String × String × String)
  | [] => none
  | c :: rest =>
    match tryThreadMatch (c :: rest) with
    | some m => some m
    | none => threadFind rest

/-- Characters of the RE2 `\s` class `[\t\n\f\r ]`; `\S` is its
complement. -/
def reIsSpace (c : Char) : Bool :=
  c == '\t' || c == '\n' || c == Char.ofNat 12 || c == '\r' || c == ' '

/-- `bearerRegexp.FindStringSubmatch` against `^(?:B|b)earer (\S+$)`:
the header must start with `Bearer ` or `bearer ` and the rest must be
one or more non-space characters running to the end; the captured group
is the token. -/
def bearerMatch (h : String) : Option String :=
  match h.toList with
  | [] => none
  | c :: rest =>
    if (c == 'B' || c == 'b') && rest.take 6 == "earer ".toList then
      let tok := rest.drop 6
      if !tok.isEmpty && tok.all (fun d => !reIsSpace d) then some (String.mk tok)
      else none
    else none

/-- Go `strings.Split(s, "/")`: the segments of `s` between slashes,
empty segments kept. -/
def splitSlash : List Char → List (List Char)
  | [] => [[]]
  | c :: rest =>
    let r := splitSlash rest
    if c == '/' then [] :: r
    else
      match r with
      | [] => [[c]]
      | h :: t => (c :: h) :: t

/-- The wire comment decoded from the request body, plus the
server-assigned fields set at intake (lines 94–97).
The `suspicious` field is Modelled from the spec: `IsSuspicious` lives
in the `comments` package, absent from the sources at hand; the spec
treats it as "a caller-supplied heuristic … consumed as a boolean
signal", independent of the other intake fields. -/
structure RawComment where
  author : String
  email : String
  url : String
  body : String
  ip : String := ""
  date : String := ""
  id : String := ""
  verified : Bool := false
  suspicious : Bool := false
deriving DecidableEq

/-- Modelled from the spec: the suspicious-comment heuristic, consumed
as an independent boolean signal. -/
def RawComment.IsSuspicious (c : RawComment) : Bool :=
  c.suspicious

/-- Modelled from the spec: the public view produced by
`comments.ParseRaw`, exposing the same author/body/date/verified values
with no loss. -/
structure ParsedComment where
  author : String
  body : String
  date : String
  verified : Bool
deriving DecidableEq

/-- Modelled from the spec: `comments.ParseRaw`. -/
def ParseRaw (c : RawComment) : ParsedComment :=
  ⟨c.author, c.body, c.date, c.verified⟩

/-- `json.Marshal(comment)`: the persisted comment file content. JSON
string escaping is abstracted away; the claims use the content only as
an opaque value determined by the comment's fields. -/
def encodeComment (c : RawComment) : String :=
  "\x7b\"author\":\"" ++ c.author ++ "\",\"email\":\"" ++ c.email ++
  "\",\"url\":\"" ++ c.url ++ "\",\"body\":\"" ++ c.body ++
  "\",\"ip\":\"" ++ c.ip ++ "\",\"date\":\"" ++ c.date ++
  "\",\"id\":\"" ++ c.id ++ "\",\"verified\":" ++
  (if c.verified then "true" else "false") ++ "\x7d"

/-- `json.Marshal(parsedComment)`: the success response body. -/
def encodeParsed (p : ParsedComment) : String :=
  "\x7b\"author\":\"" ++ p.author ++ "\",\"body\":\"" ++ p.body ++
  "\",\"date\":\"" ++ p.date ++ "\",\"verified\":" ++
  (if p.verified then "true" else "false") ++ "\x7d"

/-- The thread metadata loaded by `s.entryData`: canonical thread
identifier and creation time (nanoseconds). -/
structure EntryData where
  thread : String
  createdAt : Int
deriving DecidableEq

/-- The moderation settings snapshot read at the top of the handler. -/
structure Settings where
  bannedIPs : List String := []
  bannedEmails : List String := []
  bannedKeywords : List String := []
  timeLimit : Int := 0
  requireApproval : Bool := false
deriving DecidableEq

/-- The slice of `conf.Configuration` the handler reads. -/
structure Config where
  repository : String
  threadsSource : String
  jwtSecret : String
deriving DecidableEq

/-- The branch value returned by `Repositories.GetBranch`: `name` is a
`*string` and the commit SHA may be absent (`GetSHA` on a nil commit
yields the empty string). -/
structure Branch where
  name : Option String := none
  commitSha : Option String := none
deriving DecidableEq

/-- Result oracle for the content-store client: the outcome each call
would have if made. `getBranchRes` is the Go-style pair returned by
`GetBranch`; per the store contract a failed lookup carries no branch
value. The other operations either succeed (`none`) or fail with a
message. -/
structure Store where
  getBranchRes : Option Branch × Option String := (some {}, none)
  createRefErr : Option String := none
  createFileErr : Option String := none
  createPRErr : Option String := none
deriving DecidableEq

/-- One content-store call as issued by the handler, with its
arguments. -/
inductive StoreCall
  | getBranchHead (owner repo branch : String)
  | createBranch (owner repo ref sha : String)
  | createFile (owner repo path message content branch : String)
  | createPR (owner repo title head : String) (base : Option String)
deriving DecidableEq

/-- The HTTP response the handler writes. -/
structure HttpOut where
  status : Nat
  body : String
  headers : List (String × String)
deriving DecidableEq

/-- How a handler run ends: a written response, or a runtime panic
(nil dereference / out-of-range indexing). -/
inductive Outcome
  | ok (o : HttpOut)
  | panic
deriving DecidableEq

/-- Modelled from the spec: a parsed bearer credential. `alg` is the
declared signing algorithm, `signedWith` the symmetric secret the
signature actually verifies against, and `emailClaim` the embedded
`email` claim when present. -/
structure JwtToken where
  alg : String
  signedWith : String
  emailClaim : Option String
deriving DecidableEq

/-- An inbound POST request: path, source address, Authorization header
(empty string when missing), and the decoded JSON body (`none` when the
body is malformed). -/
structure Request where
  path : String
  remoteAddr : String
  authHeader : String := ""
  body : Option RawComment := none

def ctHeader : String × String := ("Content-Type", "application/json")

/-- `jsonError(w, message, status)` under the handler's JSON
content-type header. -/
def jsonError (message : String) (status : Nat) : HttpOut :=
  ⟨status, "\x7b\"msg\":\"" ++ message ++ "\"\x7d", [ctHeader]⟩

/-- The silent-rejection response: `X-Banned` diagnostic header, body
`{}`, implicit status 200. -/
def silentResp (category : String) : HttpOut :=
  ⟨200, "\x7b\x7d", [ctHeader, ("X-Banned", category)]⟩

/-- `(*Server).verify` (lines 173–204): bearer-header extraction, JWT
parsing with the HS256 keyfunc, and the email-claim comparison. The
ambient token universe `tokens` maps a token string to its decoded
credential (`none` for an unparseable token); signature validity means
the credential is signed with the configured secret. -/
def verify (secret email authHeader : String)
    (tokens : String → Option JwtToken) : Bool :=
  if authHeader == "" then false
  else
    match bearerMatch authHeader with
    | none => false
    | some tokenStr =>
      match tokens tokenStr with
      | none => false
      | some t =>
        if t.alg != "HS256" then false
        else if t.signedWith != secret then false
        else
          match t.emailClaim with
          | none => false
          | some claimed => claimed == email

/-- Lines 94–97: the server-assigned intake fields. `v` is the result
of `verify`. -/
def intake (c0 : RawComment) (req : Request) (now : Int) (v : Bool) : RawComment :=
  { c0 with
    ip := req.remoteAddr
    date := toString now
    id := toString now
    verified := v }

/-- One banned-substring test: `strings.Contains` against the comment's
email, body and URL (lines 79 and 87). -/
def matchesBan (c : RawComment) (b : String) : Bool :=
  containsSub c.email b || containsSub c.body b || containsSub c.url b

/-- Lines 111–166: the two-path persistence protocol, given the already
computed owner/repo, pathname, commit message, file content and success
body. Returns the outcome together with the chronological list of
store calls issued. In the reviewed path the code reads
`master.Commit.GetSHA()` before checking the `GetBranch` error, so a
failed lookup that returns no branch value is a nil dereference. -/
def storePhase (owner repo pathname message content successBody : String)
    (reviewed : Bool) (commentId : String) (store : Store) :
    Outcome × List StoreCall :=
  if reviewed then
    let branch := "comment-" ++ commentId
    let c1 := StoreCall.getBranchHead owner repo "master"
    match store.getBranchRes with
    | (none, _) => (.panic, [c1])
    | (some master, errGB) =>
      let sha := master.commitSha.getD ""
      let refName := "refs/heads/" ++ branch
      match errGB with
      | some e => (.ok (jsonError ("Failed to write comment: " ++ e) 500), [c1])
      | none =>
        let c2 := StoreCall.createBranch owner repo refName sha
        match store.createRefErr with
        | some e =>
          (.ok (jsonError ("Failed to create comment branch: " ++ e) 500), [c1, c2])
        | none =>
          let c3 := StoreCall.createFile owner repo pathname message content branch
          match store.createFileErr with
          | some e =>
            (.ok (jsonError ("Failed to write comment: " ++ e) 500), [c1, c2, c3])
          | none =>
            let c4 := StoreCall.createPR owner repo message branch master.name
            match store.createPRErr with
            | some e =>
              (.ok (jsonError ("Failed to create PR: " ++ e) 500), [c1, c2, c3, c4])
            | none =>
              (.ok ⟨200, successBody, [ctHeader]⟩, [c1, c2, c3, c4])
  else
    let c := StoreCall.createFile owner repo pathname message content "master"
    match store.createFileErr with
    | some e => (.ok (jsonError ("Failed to write comment: " ++ e) 500), [c])
    | none => (.ok ⟨200, successBody, [ctHeader]⟩, [c])

/-- `(*Server).postComment` (lines 47–171). The single `now` parameter
stands for the handler's `time.Now()` readings (nanoseconds);
`entryLookup` stands for `s.entryData`, and `tokens` is the JWT
universe consumed by `verify`. Returns the outcome and the
chronological list of content-store calls. -/
def postComment (cfg : Config) (settings : Settings)
    (entryLookup : String → Option EntryData) (now : Int)
    (tokens : String → Option JwtToken) (store : Store) (req : Request) :
    Outcome × List StoreCall :=
  if settings.bannedIPs.any (fun ip => req.remoteAddr == ip) then
    (.ok (silentResp "IP-Banned"), [])
  else
    match entryLookup req.path with
    | none => (.ok (jsonError "Unable to read entry data" 400), [])
    | some entry =>
      if settings.timeLimit ≠ 0 ∧ now - entry.createdAt > settings.timeLimit then
        (.ok (jsonError "Thread is closed for new comments" 401), [])
      else
        match req.body with
        | none => (.ok (jsonError "Error decoding JSON body" 422), [])
        | some c0 =>
          if settings.bannedEmails.any (fun b => matchesBan c0 b) then
            (.ok (silentResp "Email-Banned"), [])
          else if settings.bannedKeywords.any (fun b => matchesBan c0 b) then
            (.ok (silentResp "Keyword-Banned"), [])
          else
            let comment : RawComment :=
              intake c0 req now (verify cfg.jwtSecret c0.email req.authHeader tokens)
            match splitSlash cfg.repository.toList with
            | ownerCs :: repoCs :: _ =>
              let owner := String.mk ownerCs
              let repo := String.mk repoCs
              match threadFind entry.thread.toList with
              | none => (.panic, [])
              | some (m1, m2, m3) =>
                let dir := m1 ++ "/" ++ m2 ++ "/" ++ m3
                match firstParagraphOf comment.body with
                | none => (.panic, [])
                | some fp =>
                  match nameFrom fp with
                  | none => (.panic, [])
                  | some name =>
                    let pathname :=
                      cfg.threadsSource ++ "/" ++ dir ++ "/" ++
                      toString (Int.tdiv now 1000000) ++ "-" ++ name ++ ".json"
                    storePhase owner repo pathname fp (encodeComment comment)
                      (encodeParsed (ParseRaw comment))
                      (settings.requireApproval || comment.IsSuspicious)
                      comment.id store
            | _ => (.panic, [])

/-- Response status of an outcome: `none` for a panic (no response is
written). -/
def statusOf : Outcome → Option Nat
  | .ok o => some o.status
  | .panic => none

/-- The operation kind of a store call. -/
inductive CallKind
  | getHead
  | newBranch
  | file
  | pr
deriving DecidableEq

def kindOf : StoreCall → CallKind
  | .getBranchHead .. => .getHead
  | .createBranch .. => .newBranch
  | .createFile .. => .file
  | .createPR .. => .pr

/-- The branch a `CreateFile` call targets. -/
def fileBranch : StoreCall → Option String
  | .createFile _ _ _ _ _ b => some b
  | _ => none

/-- Erase the file content of a `CreateFile` call, keeping every other
argument. -/
def stripContent : StoreCall → StoreCall
  | .createFile o r p m _ b => .createFile o r p m "" b
  | c => c

/-- The value line 102 always computes: the whole trimmed, lower-cased
body (`SplitAfterN` with count 1 performs no split). -/
def fpOf (body : String) : String :=
  String.mk ((trimSpace body.toList).map Char.toLower)

/-- The value line 103 always computes from a first-paragraph string. -/
def nameOf (fp : String) : String :=
  String.mk (squeezeHyphens (trimHyphens (slugifyChars
    ((fp.toList.take (Min 50 fp.toList.length)).drop 0))))

theorem Min_le_right (x y : Nat) : Min x y ≤ y := by
  unfold Min
  split <;> omega

theorem Min_eq_min (x y : Nat) : Min x y = min x y := by
  unfold Min
  split <;> omega

theorem firstParagraphOf_eq (body : String) :
    firstParagraphOf body = some (fpOf body) := by
  have h : goSlice body.toList 0 body.toList.length = some body.toList := by
    unfold goSlice
    simp
  unfold firstParagraphOf
  rw [h]
  rfl

theorem nameFrom_eq (fp : String) :
    nameFrom fp = some (nameOf fp) := by
  have hle : Min 50 fp.length ≤ fp.length :=
    Min_le_right 50 fp.length
  have h : goSlice fp.toList 0 (Min 50 fp.toList.length) =
      some ((fp.toList.take (Min 50 fp.toList.length)).drop 0) := by
    unfold goSlice
    simp [hle]
  unfold nameFrom
  rw [h]
  rfl

theorem slugOf_eq (body : String) :
    slugOf body = some (nameOf (fpOf body)) := by
  unfold slugOf
  rw [firstParagraphOf_eq]
  exact nameFrom_eq (fpOf body)

/-- Every validated submission reaching the naming stage hands control
to `storePhase` with the arguments computed from the intake comment. -/
theorem postComment_pass
    (cfg : Config) (settings : Settings) (el : String → Option EntryData)
    (now : Int) (tk : String → Option JwtToken) (st : Store) (req : Request)
    (entry : EntryData) (c0 : RawComment)
    (ownerCs repoCs : List Char) (restCs : List (List Char))
    (m1 m2 m3 : String)
    (hIP : (settings.bannedIPs.any fun ip => req.remoteAddr == ip) = false)
    (hEntry : el req.path = some entry)
    (hTime : ¬(settings.timeLimit ≠ 0 ∧ now - entry.createdAt > settings.timeLimit))
    (hBody : req.body = some c0)
    (hE : (settings.bannedEmails.any fun b => matchesBan c0 b) = false)
    (hK : (settings.bannedKeywords.any fun b => matchesBan c0 b) = false)
    (hRepo : splitSlash cfg.repository.toList = ownerCs :: repoCs :: restCs)
    (hThread : threadFind entry.thread.toList = some (m1, m2, m3)) :
    postComment cfg settings el now tk st req =
      storePhase (String.mk ownerCs) (String.mk repoCs)
        (cfg.threadsSource ++ "/" ++ (m1 ++ "/" ++ m2 ++ "/" ++ m3) ++ "/" ++
          toString (Int.tdiv now 1000000) ++ "-" ++ nameOf (fpOf c0.body) ++ ".json")
        (fpOf c0.body)
        (encodeComment (intake c0 req now (verify cfg.jwtSecret c0.email req.authHeader tk)))
        (encodeParsed (ParseRaw (intake c0 req now (verify cfg.jwtSecret c0.email req.authHeader tk))))
        (settings.requireApproval || c0.suspicious)
        (toString now) st := by
  unfold postComment
  simp only [hIP, hEntry, hBody, hRepo, hThread, hE, hK, hTime,
    Bool.false_eq_true, if_false, ite_false, intake, RawComment.IsSuspicious,
    firstParagraphOf_eq, nameFrom_eq]

theorem storePhase_direct_trace (o r pn m ct sb id : String) (st : Store) :
    (storePhase o r pn m ct sb false id st).2 =
      [StoreCall.createFile o r pn m ct "master"] := by
  unfold storePhase
  cases h : st.createFileErr <;> simp [h]

theorem storePhase_reviewed_trace (o r pn m ct sb id : String) (st : Store)
    (br : Branch)
    (hGB : st.getBranchRes = (some br, none)) (hCR : st.createRefErr = none)
    (hCF : st.createFileErr = none) (hPR : st.createPRErr = none) :
    (storePhase o r pn m ct sb true id st).2 =
      [StoreCall.getBranchHead o r "master",
       StoreCall.createBranch o r ("refs/heads/" ++ ("comment-" ++ id))
         (br.commitSha.getD ""),
       StoreCall.createFile o r pn m ct ("comment-" ++ id),
       StoreCall.createPR o r m ("comment-" ++ id) br.name] := by
  unfold storePhase
  rw [hGB, hCR, hCF, hPR]
  rfl

/-- Every `storePhase` run ends in a panic, a 200 success, or a 500
store error. -/
theorem storePhase_status (o r pn m ct sb : String) (rev : Bool)
    (id : String) (st : Store) :
    statusOf (storePhase o r pn m ct sb rev id st).1 = none ∨
    statusOf (storePhase o r pn m ct sb rev id st).1 = some 200 ∨
    statusOf (storePhase o r pn m ct sb rev id st).1 = some 500 := by
  cases rev
  · cases h : st.createFileErr <;> simp [storePhase, statusOf, jsonError, h]
  · rcases hgb : st.getBranchRes with ⟨mb, eb⟩
    cases mb <;> cases eb <;>
      cases hcr : st.createRefErr <;>
      cases hcf : st.createFileErr <;>
      cases hpr : st.createPRErr <;>
      simp [storePhase, statusOf, jsonError, hgb, hcr, hcf, hpr]

/-- `storePhase` at two file contents / success bodies: the status and
the content-erased trace are identical. -/
theorem storePhase_strip (o r pn m ct1 ct2 sb1 sb2 : String) (rev : Bool)
    (id : String) (st : Store) :
    statusOf (storePhase o r pn m ct1 sb1 rev id st).1 =
      statusOf (storePhase o r pn m ct2 sb2 rev id st).1 ∧
    (storePhase o r pn m ct1 sb1 rev id st).2.map stripContent =
      (storePhase o r pn m ct2 sb2 rev id st).2.map stripContent := by
  cases rev
  · cases h : st.createFileErr <;>
      simp [storePhase, statusOf, stripContent, h]
  · rcases hgb : st.getBranchRes with ⟨mb, eb⟩
    cases mb <;> cases eb <;>
      cases hcr : st.createRefErr <;>
      cases hcf : st.createFileErr <;>
      cases hpr : st.createPRErr <;>
      simp [storePhase, statusOf, stripContent, hgb, hcr, hcf, hpr]

theorem kindOf_stripContent (c : StoreCall) :
    kindOf (stripContent c) = kindOf c := by
  cases c <;> rfl

/-- A banned source address short-circuits the whole handler into the
silent IP-Banned response with no store call. -/
theorem postComment_ipban (cfg : Config) (settings : Settings)
    (el : String → Option EntryData) (now : Int)
    (tk : String → Option JwtToken) (st : Store) (req : Request)
    (hIP : (settings.bannedIPs.any fun ip => req.remoteAddr == ip) = true) :
    postComment cfg settings el now tk st req =
      (.ok (silentResp "IP-Banned"), []) := by
  unfold postComment
  simp [hIP]

theorem storePhase_no_401 (o r pn m ct sb : String) (rev : Bool)
    (id : String) (st : Store) :
    statusOf (storePhase o r pn m ct sb rev id st).1 ≠ some 401 := by
  rcases storePhase_status o r pn m ct sb rev id st with h | h | h <;> simp [h]

/-- With a zero time limit, no run of the handler ever answers 401. -/
theorem postComment_no_401_of_no_limit (cfg : Config) (settings : Settings)
    (el : String → Option EntryData) (now : Int)
    (tk : String → Option JwtToken) (st : Store) (req : Request)
    (h0 : settings.timeLimit = 0) :
    statusOf (postComment cfg settings el now tk st req).1 ≠ some 401 := by
  unfold postComment
  split
  · simp [statusOf, silentResp]
  · cases hEntry : el req.path with
    | none => simp [statusOf, jsonError]
    | some entry =>
      simp only [h0, ne_eq, not_true_eq_false, false_and, if_false]
      cases hBody : req.body with
      | none => simp [statusOf, jsonError]
      | some c0 =>
        simp only []
        split
        · simp [statusOf, silentResp]
        · split
          · simp [statusOf, silentResp]
          · rcases hsp : splitSlash cfg.repository.toList with _ | ⟨o1, _ | ⟨r1, rest⟩⟩
            · simp [statusOf]
            · simp [statusOf]
            · simp only []
              cases hTh : threadFind entry.thread.toList with
              | none => simp [statusOf]
              | some m =>
                rcases m with ⟨m1, m2, m3⟩
                simp only [intake, firstParagraphOf_eq, nameFrom_eq]
                exact storePhase_no_401 _ _ _ _ _ _ _ _ _

/- Concrete fixtures used by witnesses and counterexample
evaluations. -/

def cfg0 : Config := ⟨"octo/blog", "threads", "s3cr3t"⟩

def entry0 : EntryData := ⟨"2017-4-hello", 1000⟩

def el0 : String → Option EntryData := fun _ => some entry0

def elBad : String → Option EntryData := fun _ => some ⟨"badthread", 0⟩

def tokens0 : String → Option JwtToken := fun _ => none

def comment0 : RawComment :=
  { author := "Ann", email := "ann@example.com", url := "", body := "Nice post" }

def req0 : Request :=
  { path := "/posts/hello", remoteAddr := "1.2.3.4", body := some comment0 }

/-- C4: the slug derivation does not keep only the first line of the
body. On the body "Hello, World!\nmore text" the code derives
"hello-world-more-text" — the whole lower-cased body slugified —
because `strings.SplitAfterN(…, "\n", 1)` with count 1 returns the
string unsplit, so the "first paragraph" is the entire body. -/
theorem c4_slug_on_spec_example :
    slugOf "Hello, World!\nmore text" = some "hello-world-more-text" ∧
    firstParagraphOf "Hello, World!\nmore text" =
      some "hello, world!\nmore text" := by
  decide

/-- C8: slug derivation is total. Every body, the empty one included,
yields a slug: the source's `Min` is the mathematical minimum, so the
truncation bound `Min(50, len)` clamps to the body length and the
slice is always in range. -/
theorem c8_slug_total :
    (∀ body : String, (slugOf body).isSome = true) ∧
    (∀ x y : Nat, Min x y = min x y) ∧
    slugOf "" = some "" := by
  refine ⟨fun body => ?_, Min_eq_min, by decide⟩
  rw [slugOf_eq]
  rfl

/-- C7: a resolved thread whose identifier admits no
`(\d+)-(\d+)-(.+)` decomposition does not produce a malformed-thread-ID
error: `matches[1]` indexes the nil regexp result, the run ends in a
panic, no response is written, and no store call is made. -/
theorem c7_unmatched_thread_id_panics :
    threadFind ("badthread".toList) = none ∧
    postComment cfg0 {} elBad 5 tokens0 {} req0 = (.panic, []) := by
  decide

/-- C2: when branch-head resolution fails — the store returns an error
and hence no branch value — the handler reads `master.Commit` before
its error check and panics instead of returning the required 500 JSON
error; the sequence still stops after the single GetBranchHead call. -/
theorem c2_branch_head_failure_panics :
    postComment cfg0 { requireApproval := true } el0 5 tokens0
        { getBranchRes := (none, some "boom") } req0 =
      (.panic, [StoreCall.getBranchHead "octo" "blog" "master"]) := by
  decide

/-- C3: a request from a banned source address, and a decoded comment
whose email, body or URL contains a banned email or keyword substring,
are all answered with HTTP 200, body `{}` and an X-Banned header naming
the ban category, with no content-store call. -/
theorem c3_silent_ban_responses :
    (∀ (cfg : Config) (settings : Settings) (el : String → Option EntryData)
       (now : Int) (tk : String → Option JwtToken) (st : Store) (req : Request),
       (settings.bannedIPs.any fun ip => req.remoteAddr == ip) = true →
       postComment cfg settings el now tk st req =
         (.ok (silentResp "IP-Banned"), [])) ∧
    (∀ (cfg : Config) (settings : Settings) (el : String → Option EntryData)
       (now : Int) (tk : String → Option JwtToken) (st : Store) (req : Request)
       (entry : EntryData) (c0 : RawComment),
       (settings.bannedIPs.any fun ip => req.remoteAddr == ip) = false →
       el req.path = some entry →
       ¬(settings.timeLimit ≠ 0 ∧ now - entry.createdAt > settings.timeLimit) →
       req.body = some c0 →
       (settings.bannedEmails.any fun b => matchesBan c0 b) = true →
       postComment cfg settings el now tk st req =
         (.ok (silentResp "Email-Banned"), [])) ∧
    (∀ (cfg : Config) (settings : Settings) (el : String → Option EntryData)
       (now : Int) (tk : String → Option JwtToken) (st : Store) (req : Request)
       (entry : EntryData) (c0 : RawComment),
       (settings.bannedIPs.any fun ip => req.remoteAddr == ip) = false →
       el req.path = some entry →
       ¬(settings.timeLimit ≠ 0 ∧ now - entry.createdAt > settings.timeLimit) →
       req.body = some c0 →
       (settings.bannedEmails.any fun b => matchesBan c0 b) = false →
       (settings.bannedKeywords.any fun b => matchesBan c0 b) = true →
       postComment cfg settings el now tk st req =
         (.ok (silentResp "Keyword-Banned"), [])) ∧
    (∀ category : String, silentResp category =
       ⟨200, "\x7b\x7d",
        [("Content-Type", "application/json"), ("X-Banned", category)]⟩) := by
  refine ⟨postComment_ipban, ?_, ?_, fun category => rfl⟩
  · intro cfg settings el now tk st req entry c0 hIP hEntry hTime hBody hE
    unfold postComment
    simp only [hIP, hEntry, hBody, hE, hTime, Bool.false_eq_true, if_false,
      ite_false, if_true]
  · intro cfg settings el now tk st req entry c0 hIP hEntry hTime hBody hE hK
    unfold postComment
    simp only [hIP, hEntry, hBody, hE, hK, hTime, Bool.false_eq_true, if_false,
      ite_false, if_true]

/-- The closed-thread rejection: exact response and empty trace. -/
theorem postComment_closed_thread (cfg : Config) (settings : Settings)
    (el : String → Option EntryData) (now : Int)
    (tk : String → Option JwtToken) (st : Store) (req : Request)
    (entry : EntryData)
    (hIP : (settings.bannedIPs.any fun ip => req.remoteAddr == ip) = false)
    (hEntry : el req.path = some entry)
    (hNZ : settings.timeLimit ≠ 0)
    (hGT : now - entry.createdAt > settings.timeLimit) :
    postComment cfg settings el now tk st req =
      (.ok (jsonError "Thread is closed for new comments" 401), []) := by
  unfold postComment
  simp only [hIP, hEntry, Bool.false_eq_true, if_false]
  rw [if_pos ⟨hNZ, hGT⟩]

/-- C5: a submission to a thread older than a non-zero time limit is
visibly rejected with the 401 closed-thread JSON error and no
content-store call; with a zero configured time limit the handler
never answers 401 at all. -/
theorem c5_closed_thread_rejection :
    (∀ (cfg : Config) (settings : Settings) (el : String → Option EntryData)
       (now : Int) (tk : String → Option JwtToken) (st : Store) (req : Request)
       (entry : EntryData),
       (settings.bannedIPs.any fun ip => req.remoteAddr == ip) = false →
       el req.path = some entry →
       settings.timeLimit ≠ 0 →
       now - entry.createdAt > settings.timeLimit →
       postComment cfg settings el now tk st req =
         (.ok (jsonError "Thread is closed for new comments" 401), [])) ∧
    (∀ (cfg : Config) (settings : Settings) (el : String → Option EntryData)
       (now : Int) (tk : String → Option JwtToken) (st : Store) (req : Request),
       settings.timeLimit = 0 →
       statusOf (postComment cfg settings el now tk st req).1 ≠ some 401) :=
  ⟨postComment_closed_thread, postComment_no_401_of_no_limit⟩

/-- C10: the banned-address check runs before thread resolution, the
time-limit check and body decoding, so any two requests from banned
source addresses — whatever their paths, bodies, thread state or
clock — receive the identical silent response and cause no store
call. -/
theorem c10_ip_ban_first :
    (∀ (cfg : Config) (settings : Settings) (el : String → Option EntryData)
       (now : Int) (tk : String → Option JwtToken) (st : Store) (req : Request),
       (settings.bannedIPs.any fun ip => req.remoteAddr == ip) = true →
       postComment cfg settings el now tk st req =
         (.ok (silentResp "IP-Banned"), [])) ∧
    (∀ (cfg1 : Config) (settings1 : Settings) (el1 : String → Option EntryData)
       (now1 : Int) (tk1 : String → Option JwtToken) (st1 : Store) (req1 : Request)
       (cfg2 : Config) (settings2 : Settings) (el2 : String → Option EntryData)
       (now2 : Int) (tk2 : String → Option JwtToken) (st2 : Store) (req2 : Request),
       (settings1.bannedIPs.any fun ip => req1.remoteAddr == ip) = true →
       (settings2.bannedIPs.any fun ip => req2.remoteAddr == ip) = true →
       postComment cfg1 settings1 el1 now1 tk1 st1 req1 =
         postComment cfg2 settings2 el2 now2 tk2 st2 req2) := by
  refine ⟨postComment_ipban, ?_⟩
  intro cfg1 settings1 el1 now1 tk1 st1 req1 cfg2 settings2 el2 now2 tk2 st2 req2 h1 h2
  rw [postComment_ipban cfg1 settings1 el1 now1 tk1 st1 req1 h1,
      postComment_ipban cfg2 settings2 el2 now2 tk2 st2 req2 h2]

theorem bearerMatch_empty : bearerMatch "" = none := by
  decide

/-- C6: identity verification returns true only for a `Bearer`/`bearer`
header whose token parses, is signed with the shared secret under the
fixed HS256 algorithm, and carries an email claim equal to the claimed
email exactly; it returns false for a missing header, a non-bearer
scheme, an unexpected algorithm, an invalid signature, and a mismatched
email claim, and true for a correctly signed, correctly scoped
token. -/
theorem c6_verify_characterization :
    (∀ (secret email authHeader : String) (tokens : String → Option JwtToken),
       verify secret email authHeader tokens = true →
       ∃ tok t, bearerMatch authHeader = some tok ∧ tokens tok = some t ∧
         t.alg = "HS256" ∧ t.signedWith = secret ∧ t.emailClaim = some email) ∧
    (∀ (secret email : String) (tokens : String → Option JwtToken),
       verify secret email "" tokens = false) ∧
    (∀ (secret email authHeader : String) (tokens : String → Option JwtToken),
       bearerMatch authHeader = none →
       verify secret email authHeader tokens = false) ∧
    (∀ (secret email authHeader tok : String) (tokens : String → Option JwtToken)
       (t : JwtToken),
       bearerMatch authHeader = some tok → tokens tok = some t →
       t.alg ≠ "HS256" →
       verify secret email authHeader tokens = false) ∧
    (∀ (secret email authHeader tok : String) (tokens : String → Option JwtToken)
       (t : JwtToken),
       bearerMatch authHeader = some tok → tokens tok = some t →
       t.signedWith ≠ secret →
       verify secret email authHeader tokens = false) ∧
    (∀ (secret email authHeader tok claimed : String)
       (tokens : String → Option JwtToken) (t : JwtToken),
       bearerMatch authHeader = some tok → tokens tok = some t →
       t.emailClaim = some claimed → claimed ≠ email →
       verify secret email authHeader tokens = false) ∧
    (∀ (secret email authHeader tok : String) (tokens : String → Option JwtToken)
       (t : JwtToken),
       bearerMatch authHeader = some tok → tokens tok = some t →
       t.alg = "HS256" → t.signedWith = secret → t.emailClaim = some email →
       verify secret email authHeader tokens = true) := by
  refine ⟨?_, ?_, ?_, ?_, ?_, ?_, ?_⟩
  · intro secret email authHeader tokens hv
    unfold verify at hv
    by_cases hh : (authHeader == "") = true
    · rw [if_pos hh] at hv
      simp at hv
    · rw [if_neg hh] at hv
      cases hbm : bearerMatch authHeader with
      | none => rw [hbm] at hv; simp at hv
      | some tok =>
        rw [hbm] at hv
        simp only [] at hv
        cases htk : tokens tok with
        | none => rw [htk] at hv; simp at hv
        | some t =>
          rw [htk] at hv
          simp only [] at hv
          by_cases halg : (t.alg != "HS256") = true
          · rw [if_pos halg] at hv; simp at hv
          · rw [if_neg halg] at hv
            by_cases hsig : (t.signedWith != secret) = true
            · rw [if_pos hsig] at hv; simp at hv
            · rw [if_neg hsig] at hv
              cases hec : t.emailClaim with
              | none => rw [hec] at hv; simp at hv
              | some claimed =>
                rw [hec] at hv
                simp only [bne_iff_ne, ne_eq, not_not] at halg hsig
                refine ⟨tok, t, rfl, htk, halg, hsig, ?_⟩
                rw [hec, eq_of_beq hv]
  · intro secret email tokens
    rfl
  · intro secret email authHeader tokens hbm
    by_cases hh : (authHeader == "") = true
    · simp [verify, hh]
    · simp [verify, hh, hbm]
  · intro secret email authHeader tok tokens t hbm htk halg
    by_cases hh : (authHeader == "") = true
    · simp [verify, hh]
    · simp [verify, hh, hbm, htk, halg]
  · intro secret email authHeader tok tokens t hbm htk hsig
    by_cases hh : (authHeader == "") = true
    · simp [verify, hh]
    · by_cases halg : (t.alg != "HS256") = true
      · simp [verify, hh, hbm, htk, halg]
      · simp [verify, hh, hbm, htk, halg, hsig]
  · intro secret email authHeader tok claimed tokens t hbm htk hec hne
    by_cases hh : (authHeader == "") = true
    · simp [verify, hh]
    · by_cases halg : (t.alg != "HS256") = true
      · simp [verify, hh, hbm, htk, halg]
      · by_cases hsig : (t.signedWith != secret) = true
        · simp [verify, hh, hbm, htk, halg, hsig]
        · simp [verify, hh, hbm, htk, halg, hsig, hec, hne]
  · intro secret email authHeader tok tokens t hbm htk halg hsig hec
    have hh : (authHeader == "") = false := by
      cases hb : (authHeader == "") with
      | false => rfl
      | true =>
        rw [eq_of_beq hb, bearerMatch_empty] at hbm
        cases hbm
    simp [verify, hh, hbm, htk, halg, hsig, hec]

def tokensW : String → Option JwtToken :=
  fun s =>
    if s == "goodtoken" then some ⟨"HS256", "s3cr3t", some "ann@example.com"⟩
    else none

/-- Witness for C6: a correctly signed, correctly scoped bearer token
verifies; a missing header and a non-bearer scheme do not. -/
theorem c6_verify_characterization_witness :
    verify "s3cr3t" "ann@example.com" "Bearer goodtoken" tokensW = true ∧
    verify "s3cr3t" "ann@example.com" "" tokensW = false ∧
    verify "s3cr3t" "ann@example.com" "Token goodtoken" tokensW = false :=
  ⟨c6_verify_characterization.2.2.2.2.2.2 "s3cr3t" "ann@example.com"
      "Bearer goodtoken" "goodtoken" tokensW
      ⟨"HS256", "s3cr3t", some "ann@example.com"⟩
      (by decide) (by decide) rfl rfl rfl,
   c6_verify_characterization.2.1 "s3cr3t" "ann@example.com" tokensW,
   c6_verify_characterization.2.2.1 "s3cr3t" "ann@example.com"
      "Token goodtoken" tokensW (by decide)⟩

/-- C1: a validated submission with approval required or a suspicious
comment takes the Reviewed path: one GetBranchHead, one CreateBranch,
one CreateFile and one CreateProposedChange call, in that order, each
step succeeding; otherwise it takes the Direct path: exactly one
CreateFile call against the published master branch and no
branch-creation or proposed-change call. -/
theorem c1_moderation_router_call_sequences :
    (∀ (cfg : Config) (settings : Settings) (el : String → Option EntryData)
       (now : Int) (tk : String → Option JwtToken) (st : Store) (req : Request)
       (entry : EntryData) (c0 : RawComment) (ownerCs repoCs : List Char)
       (restCs : List (List Char)) (m1 m2 m3 : String) (br : Branch),
       (settings.bannedIPs.any fun ip => req.remoteAddr == ip) = false →
       el req.path = some entry →
       ¬(settings.timeLimit ≠ 0 ∧ now - entry.createdAt > settings.timeLimit) →
       req.body = some c0 →
       (settings.bannedEmails.any fun b => matchesBan c0 b) = false →
       (settings.bannedKeywords.any fun b => matchesBan c0 b) = false →
       splitSlash cfg.repository.toList = ownerCs :: repoCs :: restCs →
       threadFind entry.thread.toList = some (m1, m2, m3) →
       (settings.requireApproval || c0.suspicious) = true →
       st.getBranchRes = (some br, none) →
       st.createRefErr = none → st.createFileErr = none → st.createPRErr = none →
       (postComment cfg settings el now tk st req).2.map kindOf =
         [CallKind.getHead, CallKind.newBranch, CallKind.file, CallKind.pr]) ∧
    (∀ (cfg : Config) (settings : Settings) (el : String → Option EntryData)
       (now : Int) (tk : String → Option JwtToken) (st : Store) (req : Request)
       (entry : EntryData) (c0 : RawComment) (ownerCs repoCs : List Char)
       (restCs : List (List Char)) (m1 m2 m3 : String),
       (settings.bannedIPs.any fun ip => req.remoteAddr == ip) = false →
       el req.path = some entry →
       ¬(settings.timeLimit ≠ 0 ∧ now - entry.createdAt > settings.timeLimit) →
       req.body = some c0 →
       (settings.bannedEmails.any fun b => matchesBan c0 b) = false →
       (settings.bannedKeywords.any fun b => matchesBan c0 b) = false →
       splitSlash cfg.repository.toList = ownerCs :: repoCs :: restCs →
       threadFind entry.thread.toList = some (m1, m2, m3) →
       (settings.requireApproval || c0.suspicious) = false →
       (postComment cfg settings el now tk st req).2.map kindOf =
           [CallKind.file] ∧
         (postComment cfg settings el now tk st req).2.all
           (fun c => fileBranch c == some "master") = true) := by
  constructor
  · intro cfg settings el now tk st req entry c0 ownerCs repoCs restCs m1 m2 m3 br
      hIP hEntry hTime hBody hE hK hRepo hThread hCond hGB hCR hCF hPR
    rw [postComment_pass cfg settings el now tk st req entry c0 ownerCs repoCs
        restCs m1 m2 m3 hIP hEntry hTime hBody hE hK hRepo hThread, hCond,
      storePhase_reviewed_trace _ _ _ _ _ _ _ st br hGB hCR hCF hPR]
    rfl
  · intro cfg settings el now tk st req entry c0 ownerCs repoCs restCs m1 m2 m3
      hIP hEntry hTime hBody hE hK hRepo hThread hCond
    rw [postComment_pass cfg settings el now tk st req entry c0 ownerCs repoCs
        restCs m1 m2 m3 hIP hEntry hTime hBody hE hK hRepo hThread, hCond,
      storePhase_direct_trace]
    exact ⟨rfl, rfl⟩

/-- Witness for C1: the Reviewed and Direct call sequences at a
concrete submission. -/
theorem c1_moderation_router_call_sequences_witness :
    ((postComment cfg0 { requireApproval := true } el0 5 tokens0 {} req0).2.map
        kindOf =
      [CallKind.getHead, CallKind.newBranch, CallKind.file, CallKind.pr]) ∧
    ((postComment cfg0 {} el0 5 tokens0 {} req0).2.map kindOf =
        [CallKind.file] ∧
      (postComment cfg0 {} el0 5 tokens0 {} req0).2.all
        (fun c => fileBranch c == some "master") = true) :=
  ⟨c1_moderation_router_call_sequences.1 cfg0 { requireApproval := true } el0 5
      tokens0 {} req0 entry0 comment0 ("octo".toList) ("blog".toList) []
      "2017" "4" "hello" {} rfl rfl (by decide) rfl rfl rfl (by decide)
      (by decide) (by decide) rfl rfl rfl rfl,
   c1_moderation_router_call_sequences.2 cfg0 {} el0 5 tokens0 {} req0 entry0
      comment0 ("octo".toList) ("blog".toList) [] "2017" "4" "hello"
      rfl rfl (by decide) rfl rfl rfl (by decide) (by decide) (by decide)⟩

theorem postComment_entry_fail (cfg : Config) (settings : Settings)
    (el : String → Option EntryData) (now : Int)
    (tk : String → Option JwtToken) (st : Store) (req : Request)
    (hIP : (settings.bannedIPs.any fun ip => req.remoteAddr == ip) = false)
    (hEntry : el req.path = none) :
    postComment cfg settings el now tk st req =
      (.ok (jsonError "Unable to read entry data" 400), []) := by
  unfold postComment
  simp only [hIP, hEntry, Bool.false_eq_true, if_false]

theorem postComment_decode_fail (cfg : Config) (settings : Settings)
    (el : String → Option EntryData) (now : Int)
    (tk : String → Option JwtToken) (st : Store) (req : Request)
    (entry : EntryData)
    (hIP : (settings.bannedIPs.any fun ip => req.remoteAddr == ip) = false)
    (hEntry : el req.path = some entry)
    (hTime : ¬(settings.timeLimit ≠ 0 ∧ now - entry.createdAt > settings.timeLimit))
    (hBody : req.body = none) :
    postComment cfg settings el now tk st req =
      (.ok (jsonError "Error decoding JSON body" 422), []) := by
  unfold postComment
  simp only [hIP, hEntry, hBody, hTime, Bool.false_eq_true, if_false, ite_false]

theorem postComment_emailban (cfg : Config) (settings : Settings)
    (el : String → Option EntryData) (now : Int)
    (tk : String → Option JwtToken) (st : Store) (req : Request)
    (entry : EntryData) (c0 : RawComment)
    (hIP : (settings.bannedIPs.any fun ip => req.remoteAddr == ip) = false)
    (hEntry : el req.path = some entry)
    (hTime : ¬(settings.timeLimit ≠ 0 ∧ now - entry.createdAt > settings.timeLimit))
    (hBody : req.body = some c0)
    (hE : (settings.bannedEmails.any fun b => matchesBan c0 b) = true) :
    postComment cfg settings el now tk st req =
      (.ok (silentResp "Email-Banned"), []) := by
  unfold postComment
  simp only [hIP, hEntry, hBody, hE, hTime, Bool.false_eq_true, if_false,
    ite_false, if_true]

theorem postComment_kwban (cfg : Config) (settings : Settings)
    (el : String → Option EntryData) (now : Int)
    (tk : String → Option JwtToken) (st : Store) (req : Request)
    (entry : EntryData) (c0 : RawComment)
    (hIP : (settings.bannedIPs.any fun ip => req.remoteAddr == ip) = false)
    (hEntry : el req.path = some entry)
    (hTime : ¬(settings.timeLimit ≠ 0 ∧ now - entry.createdAt > settings.timeLimit))
    (hBody : req.body = some c0)
    (hE : (settings.bannedEmails.any fun b => matchesBan c0 b) = false)
    (hK : (settings.bannedKeywords.any fun b => matchesBan c0 b) = true) :
    postComment cfg settings el now tk st req =
      (.ok (silentResp "Keyword-Banned"), []) := by
  unfold postComment
  simp only [hIP, hEntry, hBody, hE, hK, hTime, Bool.false_eq_true, if_false,
    ite_false, if_true]

theorem postComment_repo_nil (cfg : Config) (settings : Settings)
    (el : String → Option EntryData) (now : Int)
    (tk : String → Option JwtToken) (st : Store) (req : Request)
    (entry : EntryData) (c0 : RawComment)
    (hIP : (settings.bannedIPs.any fun ip => req.remoteAddr == ip) = false)
    (hEntry : el req.path = some entry)
    (hTime : ¬(settings.timeLimit ≠ 0 ∧ now - entry.createdAt > settings.timeLimit))
    (hBody : req.body = some c0)
    (hE : (settings.bannedEmails.any fun b => matchesBan c0 b) = false)
    (hK : (settings.bannedKeywords.any fun b => matchesBan c0 b) = false)
    (hRepo : splitSlash cfg.repository.toList = []) :
    postComment cfg settings el now tk st req = (.panic, []) := by
  unfold postComment
  simp only [hIP, hEntry, hBody, hE, hK, hTime, hRepo, Bool.false_eq_true,
    if_false, ite_false]

theorem postComment_repo_single (cfg : Config) (settings : Settings)
    (el : String → Option EntryData) (now : Int)
    (tk : String → Option JwtToken) (st : Store) (req : Request)
    (entry : EntryData) (c0 : RawComment) (o1 : List Char)
    (hIP : (settings.bannedIPs.any fun ip => req.remoteAddr == ip) = false)
    (hEntry : el req.path = some entry)
    (hTime : ¬(settings.timeLimit ≠ 0 ∧ now - entry.createdAt > settings.timeLimit))
    (hBody : req.body = some c0)
    (hE : (settings.bannedEmails.any fun b => matchesBan c0 b) = false)
    (hK : (settings.bannedKeywords.any fun b => matchesBan c0 b) = false)
    (hRepo : splitSlash cfg.repository.toList = [o1]) :
    postComment cfg settings el now tk st req = (.panic, []) := by
  unfold postComment
  simp only [hIP, hEntry, hBody, hE, hK, hTime, hRepo, Bool.false_eq_true,
    if_false, ite_false]

theorem postComment_badthread (cfg : Config) (settings : Settings)
    (el : String → Option EntryData) (now : Int)
    (tk : String → Option JwtToken) (st : Store) (req : Request)
    (entry : EntryData) (c0 : RawComment)
    (ownerCs repoCs : List Char) (restCs : List (List Char))
    (hIP : (settings.bannedIPs.any fun ip => req.remoteAddr == ip) = false)
    (hEntry : el req.path = some entry)
    (hTime : ¬(settings.timeLimit ≠ 0 ∧ now - entry.createdAt > settings.timeLimit))
    (hBody : req.body = some c0)
    (hE : (settings.bannedEmails.any fun b => matchesBan c0 b) = false)
    (hK : (settings.bannedKeywords.any fun b => matchesBan c0 b) = false)
    (hRepo : splitSlash cfg.repository.toList = ownerCs :: repoCs :: restCs)
    (hThread : threadFind entry.thread.toList = none) :
    postComment cfg settings el now tk st req = (.panic, []) := by
  unfold postComment
  simp only [hIP, hEntry, hBody, hE, hK, hTime, hRepo, hThread,
    Bool.false_eq_true, if_false, ite_false]

/-- Two runs of the handler that differ only in the Authorization
header and the ambient token universe produce the same response status
and the same store-call trace up to the persisted file content. -/
theorem postComment_strip (cfg : Config) (settings : Settings)
    (el : String → Option EntryData) (now : Int) (st : Store) (req : Request)
    (tk1 tk2 : String → Option JwtToken) (a1 a2 : String) :
    statusOf (postComment cfg settings el now tk1 st
        { req with authHeader := a1 }).1 =
      statusOf (postComment cfg settings el now tk2 st
        { req with authHeader := a2 }).1 ∧
    (postComment cfg settings el now tk1 st
        { req with authHeader := a1 }).2.map stripContent =
      (postComment cfg settings el now tk2 st
        { req with authHeader := a2 }).2.map stripContent := by
  set r1 : Request := { req with authHeader := a1 } with hr1
  set r2 : Request := { req with authHeader := a2 } with hr2
  have haddr1 : r1.remoteAddr = req.remoteAddr := rfl
  have haddr2 : r2.remoteAddr = req.remoteAddr := rfl
  have hpath1 : r1.path = req.path := rfl
  have hpath2 : r2.path = req.path := rfl
  have hbody1 : r1.body = req.body := rfl
  have hbody2 : r2.body = req.body := rfl
  cases hip : settings.bannedIPs.any (fun ip => req.remoteAddr == ip) with
  | true =>
    rw [postComment_ipban cfg settings el now tk1 st r1 (haddr1 ▸ hip),
      postComment_ipban cfg settings el now tk2 st r2 (haddr2 ▸ hip)]
    exact ⟨rfl, rfl⟩
  | false =>
    have hip1 : (settings.bannedIPs.any fun ip => r1.remoteAddr == ip) = false :=
      haddr1 ▸ hip
    have hip2 : (settings.bannedIPs.any fun ip => r2.remoteAddr == ip) = false :=
      haddr2 ▸ hip
    cases hent : el req.path with
    | none =>
      rw [postComment_entry_fail cfg settings el now tk1 st r1 hip1 (hpath1 ▸ hent),
        postComment_entry_fail cfg settings el now tk2 st r2 hip2 (hpath2 ▸ hent)]
      exact ⟨rfl, rfl⟩
    | some entry =>
      have hent1 : el r1.path = some entry := hpath1 ▸ hent
      have hent2 : el r2.path = some entry := hpath2 ▸ hent
      by_cases ht : settings.timeLimit ≠ 0 ∧
          now - entry.createdAt > settings.timeLimit
      · rw [postComment_closed_thread cfg settings el now tk1 st r1 entry hip1
            hent1 ht.1 ht.2,
          postComment_closed_thread cfg settings el now tk2 st r2 entry hip2
            hent2 ht.1 ht.2]
        exact ⟨rfl, rfl⟩
      · cases hbody : req.body with
        | none =>
          rw [postComment_decode_fail cfg settings el now tk1 st r1 entry hip1
              hent1 ht (hbody1 ▸ hbody),
            postComment_decode_fail cfg settings el now tk2 st r2 entry hip2
              hent2 ht (hbody2 ▸ hbody)]
          exact ⟨rfl, rfl⟩
        | some c0 =>
          have hb1 : r1.body = some c0 := hbody1 ▸ hbody
          have hb2 : r2.body = some c0 := hbody2 ▸ hbody
          cases hE : settings.bannedEmails.any (fun b => matchesBan c0 b) with
          | true =>
            rw [postComment_emailban cfg settings el now tk1 st r1 entry c0 hip1
                hent1 ht hb1 hE,
              postComment_emailban cfg settings el now tk2 st r2 entry c0 hip2
                hent2 ht hb2 hE]
            exact ⟨rfl, rfl⟩
          | false =>
            cases hK : settings.bannedKeywords.any (fun b => matchesBan c0 b) with
            | true =>
              rw [postComment_kwban cfg settings el now tk1 st r1 entry c0 hip1
                  hent1 ht hb1 hE hK,
                postComment_kwban cfg settings el now tk2 st r2 entry c0 hip2
                  hent2 ht hb2 hE hK]
              exact ⟨rfl, rfl⟩
            | false =>
              rcases hsp : splitSlash cfg.repository.toList with
                _ | ⟨o1, _ | ⟨r1cs, rest⟩⟩
              · rw [postComment_repo_nil cfg settings el now tk1 st r1 entry c0
                    hip1 hent1 ht hb1 hE hK hsp,
                  postComment_repo_nil cfg settings el now tk2 st r2 entry c0
                    hip2 hent2 ht hb2 hE hK hsp]
                exact ⟨rfl, rfl⟩
              · rw [postComment_repo_single cfg settings el now tk1 st r1 entry
                    c0 o1 hip1 hent1 ht hb1 hE hK hsp,
                  postComment_repo_single cfg settings el now tk2 st r2 entry
                    c0 o1 hip2 hent2 ht hb2 hE hK hsp]
                exact ⟨rfl, rfl⟩
              · cases hTh : threadFind entry.thread.toList with
                | none =>
                  rw [postComment_badthread cfg settings el now tk1 st r1 entry
                      c0 o1 r1cs rest hip1 hent1 ht hb1 hE hK hsp hTh,
                    postComment_badthread cfg settings el now tk2 st r2 entry
                      c0 o1 r1cs rest hip2 hent2 ht hb2 hE hK hsp hTh]
                  exact ⟨rfl, rfl⟩
                | some m =>
                  rcases m with ⟨m1, m2, m3⟩
                  rw [postComment_pass cfg settings el now tk1 st r1 entry c0
                      o1 r1cs rest m1 m2 m3 hip1 hent1 ht hb1 hE hK hsp hTh,
                    postComment_pass cfg settings el now tk2 st r2 entry c0
                      o1 r1cs rest m1 m2 m3 hip2 hent2 ht hb2 hE hK hsp hTh]
                  exact storePhase_strip _ _ _ _ _ _ _ _ _ _ _

/-- C9: the verification outcome never surfaces as a request error.
Whatever the Authorization header and token universe, the handler
produces the same response status and issues the same store calls up
to the persisted file content — so a comment is persisted in one run
exactly when it is in the other — the outcome being recorded only in
the comment's verified field. -/
theorem c9_verification_outcome_invisible (cfg : Config)
    (settings : Settings) (el : String → Option EntryData) (now : Int)
    (st : Store) (req : Request) (tk1 tk2 : String → Option JwtToken)
    (a1 a2 : String) :
    statusOf (postComment cfg settings el now tk1 st
        { req with authHeader := a1 }).1 =
      statusOf (postComment cfg settings el now tk2 st
        { req with authHeader := a2 }).1 ∧
    (postComment cfg settings el now tk1 st
        { req with authHeader := a1 }).2.map stripContent =
      (postComment cfg settings el now tk2 st
        { req with authHeader := a2 }).2.map stripContent ∧
    (postComment cfg settings el now tk1 st
        { req with authHeader := a1 }).2.map kindOf =
      (postComment cfg settings el now tk2 st
        { req with authHeader := a2 }).2.map kindOf := by
  obtain ⟨hstat, htrace⟩ :=
    postComment_strip cfg settings el now st req tk1 tk2 a1 a2
  refine ⟨hstat, htrace, ?_⟩
  have hmk : ∀ t : List StoreCall,
      t.map kindOf = (t.map stripContent).map kindOf := by
    intro t
    rw [List.map_map]
    exact (List.map_congr_left fun c _ => (kindOf_stripContent c).symm)
  rw [hmk, htrace, ← hmk]

def settingsBanIP : Settings := { bannedIPs := ["1.2.3.4"] }

def settingsBanEmail : Settings := { bannedEmails := ["spam.com"] }

def settingsBanKw : Settings := { bannedKeywords := ["casino"] }

def commentSpam : RawComment :=
  { author := "A", email := "bob@spam.com", url := "", body := "hi" }

def reqSpam : Request :=
  { path := "/p", remoteAddr := "9.9.9.9", body := some commentSpam }

def commentKw : RawComment :=
  { author := "A", email := "a@b.c", url := "", body := "win at casino now" }

def reqKw : Request :=
  { path := "/p", remoteAddr := "9.9.9.9", body := some commentKw }

/-- Witness for C3: each ban category at a concrete request. -/
theorem c3_silent_ban_responses_witness :
    postComment cfg0 settingsBanIP el0 5 tokens0 {} req0 =
      (.ok (silentResp "IP-Banned"), []) ∧
    postComment cfg0 settingsBanEmail el0 5 tokens0 {} reqSpam =
      (.ok (silentResp "Email-Banned"), []) ∧
    postComment cfg0 settingsBanKw el0 5 tokens0 {} reqKw =
      (.ok (silentResp "Keyword-Banned"), []) :=
  ⟨c3_silent_ban_responses.1 cfg0 settingsBanIP el0 5 tokens0 {} req0
      (by decide),
   c3_silent_ban_responses.2.1 cfg0 settingsBanEmail el0 5 tokens0 {} reqSpam
      entry0 commentSpam (by decide) rfl (by decide) rfl (by decide),
   c3_silent_ban_responses.2.2.1 cfg0 settingsBanKw el0 5 tokens0 {} reqKw
      entry0 commentKw (by decide) rfl (by decide) rfl (by decide) (by decide)⟩

/-- Witness for C5: a thread 1000ns old against a 10ns limit is
rejected with the closed-thread 401 and no store call. -/
theorem c5_closed_thread_rejection_witness :
    postComment cfg0 { timeLimit := 10 } el0 2000 tokens0 {} req0 =
      (.ok (jsonError "Thread is closed for new comments" 401), []) :=
  c5_closed_thread_rejection.1 cfg0 { timeLimit := 10 } el0 2000 tokens0 {}
    req0 entry0 rfl rfl (by decide) (by decide)

/-- Witness for C10: a banned address with a well-formed submission and
a banned address with a malformed body, an unmatchable thread and a
different clock receive identical responses. -/
theorem c10_ip_ban_first_witness :
    postComment cfg0 settingsBanIP el0 5 tokens0 {} req0 =
      postComment cfg0 settingsBanIP elBad 99 tokens0 {}
        { path := "/other", remoteAddr := "1.2.3.4", body := none } :=
  c10_ip_ban_first.2 cfg0 settingsBanIP el0 5 tokens0 {} req0
    cfg0 settingsBanIP elBad 99 tokens0 {}
    { path := "/other", remoteAddr := "1.2.3.4", body := none }
    (by decide) (by decide)

end Gotell
